import Mathlib

/-!
Verification of the Batch Test Execution Engine of this repository
(`src/api/routes/executions.py` together with the data model of
`src/models/schemas.py`).

The shallow embedding below translates the engine's pure computations
(per-case attempt loop, summary aggregation, the finalization status rule,
the stop endpoint) into executable Lean functions, and the cooperative
scheduling of the three execution strategies into a small-step transition
system `Step` over `EngineState`.  Machine integers of the source are
modelled as `Int`/`Nat`; Python floats that only ever hold exact values
(latencies, pass rates) are modelled as `ℚ`; `datetime.now()` timestamps
are modelled as a logical clock (`Nat`) that advances at every suspension
point of the cooperative scheduler.
-/

/-- Test result status enumeration, from `src/models/schemas.py` lines 9-14. -/
inductive TestStatus where
  | passed
  | failed
  | error
  | skipped
deriving DecidableEq

/-- Modelled from the spec: `ExecutionStatus` is imported by
`src/api/routes/executions.py` from `src.models.schemas` but is not defined in
the available sources.  The spec (§4.4) fixes its states as
`pending → running → (completed | failed | stopped)`, which matches exactly the
five members used throughout `executions.py`. -/
inductive ExecutionStatus where
  | pending
  | running
  | completed
  | failed
  | stopped
deriving DecidableEq

/-- Printable form of an execution status, used in the stop endpoint's
error message (f-string interpolation of `execution.status`). -/
def ExecutionStatus.text : ExecutionStatus → String
  | .pending => "pending"
  | .running => "running"
  | .completed => "completed"
  | .failed => "failed"
  | .stopped => "stopped"

/-- A test case as stored in `test_cases_db` and read through
`get_test_case` (`executions.py` lines 28-37).  The source reads the record
as a Python dict via `.get` with the defaults reproduced here
(lines 434-443).  Response payloads are modelled at the level of their key
sets, which is all the engine ever inspects. -/
structure TestCaseData where
  id : Int
  project_id : Option Int := none
  name : String := ""
  method : String := "GET"
  endpoint : String := ""
  headers : List String := []
  query_params : List String := []
  body : List String := []
  expected_status : Int := 200
  expected_response : List String := []
  priority : Option String := none
deriving DecidableEq

/-- A project record as read from `projects_db` (`executions.py` lines 451-453):
only its `base_url` key is consulted. -/
structure ProjectData where
  base_url : Option String := none
deriving DecidableEq

/-- The external stores the engine reads: `test_cases_db` (via `get_test_case`)
and `projects_db`. -/
structure Env where
  cases : Int → Option TestCaseData
  projects : Int → Option ProjectData

/-- One `TestExecutionResult`, from `src/models/schemas.py` lines 97-106.
Timestamps are logical clock values. -/
structure TestExecutionResult where
  test_case_id : Int
  status : TestStatus
  response_time : Option ℚ := none
  actual_status : Option Int := none
  actual_response : Option (List String) := none
  error_message : Option String := none
  started_at : Nat := 0
  completed_at : Option Nat := none
deriving DecidableEq

/-- Boolean list-prefix test on characters (auxiliary for the substring test
the mock branch performs with Python's `in` operator). -/
def charsPrefixB : List Char → List Char → Bool
  | [], _ => true
  | _ :: _, [] => false
  | a :: as, b :: bs => a = b && charsPrefixB as bs

/-- Boolean substring occurrence test on character lists. -/
def charsInfixB (pat : List Char) : List Char → Bool
  | [] => charsPrefixB pat []
  | c :: rest => charsPrefixB pat (c :: rest) || charsInfixB pat rest

/-- Python's `pat in s` substring test on strings, as used by
`if "418" in url` (`executions.py` line 469). -/
def containsSub (s pat : String) : Bool :=
  charsInfixB pat.toList s.toList

/-- Resolution of the base URL, `executions.py` lines 451-453:
`projects_db.get(project_id, {}).get("base_url", "https://httpbin.org")`. -/
def resolveBaseUrl (env : Env) (project_id : Option Int) : String :=
  match project_id with
  | none => "https://httpbin.org"
  | some p =>
    match env.projects p with
    | none => "https://httpbin.org"
    | some proj => proj.base_url.getD "https://httpbin.org"

/-- Mock-mode configuration constant, `executions.py` line 20
(`MOCK_MODE = True`). -/
def MOCK_MODE : Bool := true

/-- The outcome of one attempt of the Target Invoker (the `httpx` client call
in `executions.py` lines 503-528): either the call raises (timeout, connection
failure, protocol error) with the exception's message, or it completes with a
status code, the key set of the parsed response (a JSON-decoding failure is
already absorbed by the source into the `{"text": ...}` fallback and is
therefore a `completes`), and a measured latency in milliseconds. -/
inductive AttemptOutcome where
  | raises (msg : String)
  | completes (status_code : Int) (keys : List String) (latency : ℚ)
deriving DecidableEq

/-- The pieces of a `TestExecutionResult` that `execute_single_test` computes
before timestamps are attached, together with two instrumentation counters:
how many Target Invoker calls were made and how many fixed 1-second backoff
waits (`await asyncio.sleep(1)`) were performed. -/
structure SingleOutcome where
  status : TestStatus
  error_message : Option String := none
  response_time : Option ℚ := none
  actual_status : Option Int := none
  actual_response : Option (List String) := none
  invokerCalls : Nat := 0
  backoffSleeps : Nat := 0
deriving DecidableEq

/-- HTTP methods dispatched by the invoker, `executions.py` lines 507-518;
any other method raises `ValueError` before the client is invoked. -/
def supportedMethods : List String := ["GET", "POST", "PUT", "DELETE", "PATCH"]

/-- One attempt as seen by the retry loop: a supported method performs one
Target Invoker call whose outcome the oracle supplies; an unsupported method
raises `ValueError` (line 518) without any invoker call.  The second component
counts the invoker calls of the attempt. -/
def perAttempt (tc : TestCaseData) (oracle : Nat → AttemptOutcome) (k : Nat) :
    AttemptOutcome × Nat :=
  if tc.method ∈ supportedMethods then (oracle k, 1)
  else (.raises ("不支持的HTTP方法: " ++ tc.method), 0)

/-- Processing of one completed (non-raising) attempt, `executions.py` lines
530-556 followed by the unconditional `break` of line 568: the comparison with
the expected status, the flat key-presence validation, the backoff sleep of
lines 563-564 when the result is not `passed` and attempts remain
(`sleepAvail`), and then the loop exit. -/
def completedAttempt (sc : Int) (keys : List String) (latency : ℚ)
    (expected : Int) (expected_response : List String) (calls : Nat)
    (sleepAvail : Bool) : SingleOutcome :=
  if sc = expected then
    if expected_response.all (fun k => keys.contains k) then
      { status := .passed, response_time := some latency,
        actual_status := some sc, actual_response := some keys,
        invokerCalls := calls, backoffSleeps := 0 }
    else
      { status := .failed, error_message := some "响应内容验证失败",
        response_time := some latency, actual_status := some sc,
        actual_response := some keys, invokerCalls := calls,
        backoffSleeps := if sleepAvail then 1 else 0 }
  else
    { status := .failed,
      error_message := some ("状态码不匹配: 期望 " ++ toString expected ++
        ", 实际 " ++ toString sc),
      response_time := some latency, actual_status := some sc,
      actual_response := some keys, invokerCalls := calls,
      backoffSleeps := if sleepAvail then 1 else 0 }

/-- The retry loop of `execute_single_test` in the real-HTTP branch,
`executions.py` lines 446-578: `for attempt in range(retry_count + 1)`.
`remaining` is the number of attempts still available after the current one
(so `remaining > 0` is the source's `attempt < retry_count`), and `attempt`
is the current zero-based index.  A raising attempt records the `error`
status and the exception's message (line 572-573), sleeps the backoff when
attempts remain and retries; a completed attempt is processed by
`completedAttempt` and always exits the loop. -/
def runAttempts (tc : TestCaseData) (oracle : Nat → AttemptOutcome)
    (expected : Int) : Nat → Nat → SingleOutcome
  | attempt, 0 =>
    match perAttempt tc oracle attempt with
    | (.completes sc keys latency, calls) =>
      completedAttempt sc keys latency expected tc.expected_response calls false
    | (.raises msg, calls) =>
      { status := .error, error_message := some ("执行异常: " ++ msg),
        invokerCalls := calls, backoffSleeps := 0 }
  | attempt, r + 1 =>
    match perAttempt tc oracle attempt with
    | (.completes sc keys latency, calls) =>
      completedAttempt sc keys latency expected tc.expected_response calls true
    | (.raises _, calls) =>
      let rest := runAttempts tc oracle expected (attempt + 1) r
      { rest with invokerCalls := calls + rest.invokerCalls,
                  backoffSleeps := rest.backoffSleeps + 1 }

/-- Mock keys of the simulated response bodies, `executions.py`
lines 469-482. -/
def mockTeapotKeys : List String := ["message"]

/-- Keys of the simulated success response body, `executions.py`
lines 474-482. -/
def mockResponseKeys : List String :=
  ["url", "method", "args", "json", "headers", "origin", "success"]

/-- The mock-mode branch of `execute_single_test`, `executions.py` lines
462-500: no HTTP request is sent; the simulated status is 418 when the URL
contains the substring `"418"` and the expected status otherwise; the
response time is the fixed 50.0 ms; only the status code is validated; the
loop is exited immediately (`break` at line 500), so no backoff and no
retry ever happen here. -/
def mockAttempt (url : String) (expected : Int) : SingleOutcome :=
  let response_status : Int := if containsSub url "418" then 418 else expected
  let keys := if containsSub url "418" then mockTeapotKeys else mockResponseKeys
  if response_status = expected then
    { status := .passed, response_time := some 50,
      actual_status := some response_status, actual_response := some keys,
      invokerCalls := 0, backoffSleeps := 0 }
  else
    { status := .failed,
      error_message := some ("状态码不匹配: 期望 " ++ toString expected ++
        ", 实际 " ++ toString response_status),
      response_time := some 50, actual_status := some response_status,
      actual_response := some keys, invokerCalls := 0, backoffSleeps := 0 }

/-- The core of `execute_single_test`, `executions.py` lines 396-578, without
the timestamping and result-append bookkeeping (attached by the scheduler
model below): resolution of the test case (lines 399-414, short-circuiting to
an `error` result), construction of the URL, and either the mock branch or the
real retry loop.  The per-attempt `timeout` only parameterises the `httpx`
client and is absorbed into the attempt oracle. -/
def execute_single_test (mock : Bool) (env : Env) (test_case_id : Int)
    (retry_count : Nat) (oracle : Nat → AttemptOutcome) : SingleOutcome :=
  match env.cases test_case_id with
  | none =>
    { status := .error, error_message := some "测试用例不存在",
      invokerCalls := 0, backoffSleeps := 0 }
  | some tc =>
    let base_url := resolveBaseUrl env tc.project_id
    let url := base_url ++ tc.endpoint
    if mock then mockAttempt url tc.expected_status
    else runAttempts tc oracle tc.expected_status 0 retry_count

/-- The summary record computed by `get_execution_results`
(`executions.py` lines 152-173) and duplicated at finalization time
(lines 266-286). -/
structure ExecSummary where
  total : Nat
  completed : Nat
  passed : Nat
  failed : Nat
  error : Nat
  skipped : Nat
  pass_rate : ℚ
  avg_response_time : ℚ
deriving DecidableEq

/-- Summary aggregation, translated from `executions.py` lines 152-173. -/
def computeSummary (test_case_ids : List Int)
    (results : List TestExecutionResult) : ExecSummary :=
  let total := test_case_ids.length
  let completed := results.length
  let passed := (results.filter (fun r => r.status == .passed)).length
  let failed := (results.filter (fun r => r.status == .failed)).length
  let error := (results.filter (fun r => r.status == .error)).length
  let skipped := (results.filter (fun r => r.status == .skipped)).length
  let response_times := results.filterMap (fun r => r.response_time)
  let avg_response_time : ℚ :=
    if response_times ≠ [] then response_times.sum / (response_times.length : ℚ)
    else 0
  { total := total, completed := completed, passed := passed, failed := failed,
    error := error, skipped := skipped,
    pass_rate := if 0 < completed then (passed : ℚ) / (completed : ℚ) * 100 else 0,
    avg_response_time := avg_response_time }

/-- The batch execution record, `src/models/schemas.py` lines 108-114 for the
fields present there; the remaining fields (status, execution parameters,
timestamps) are set by `create_batch_execution` (`executions.py` lines 85-95)
and described by the spec's `BatchExecution` data model (§3), their class
declaration not being part of the available sources. -/
structure TestBatchExecution where
  execution_id : String
  project_id : Int
  test_case_ids : List Int
  concurrent_limit : Nat
  timeout : Nat
  retry_count : Nat
  execution_strategy : String
  status : ExecutionStatus
  results : List TestExecutionResult := []
  summary : Option ExecSummary := none
  started_at : Option Nat := none
  completed_at : Option Nat := none
deriving DecidableEq

/-- The generic API envelope, `src/models/schemas.py` lines 162-167
(the `data` payload is not needed by any claim and is omitted). -/
structure APIResponseS where
  success : Bool := true
  message : String := "操作成功"
  error : Option String := none
deriving DecidableEq

/-- The stop endpoint, `executions.py` lines 191-222, as a pure function from
the addressed execution record (already found in `executions_db`) and the
current time to the response and the updated record.  A record whose status is
not `pending`/`running` is rejected with an error response and left untouched;
otherwise the status becomes `stopped` and `completed_at` is set. -/
def stop_execution (e : TestBatchExecution) (now : Nat) :
    APIResponseS × TestBatchExecution :=
  if e.status = .pending ∨ e.status = .running then
    ({ success := true, message := "测试执行已停止" },
     { e with status := .stopped, completed_at := some now })
  else
    ({ success := false,
       message := "无法停止已" ++ e.status.text ++ "的执行任务",
       error := some ("当前状态: " ++ e.status.text) }, e)

/-- The terminal-status rule of `execute_batch_tests`, `executions.py` lines
258-262: an execution that was manually stopped keeps its status; otherwise it
becomes `failed` when any result is `failed` or `error`, else `completed`. -/
def finalizeStatus (cur : ExecutionStatus)
    (results : List TestExecutionResult) : ExecutionStatus :=
  if cur = .stopped then cur
  else if results.any (fun r => r.status == .failed || r.status == .error) then
    .failed
  else .completed

/-- The parameters an execution runs under, fixed at creation time by
`create_batch_execution` and threaded through `execute_batch_tests`
(`executions.py` lines 100-108 and 225-252): the external stores, the
mock-mode flag, the attempt oracle of the Target Invoker (per case, per
attempt), the retry count, the concurrency limit, the strategy string, and
the requested test-case ids. -/
structure Ctx where
  env : Env
  mock : Bool
  oracle : Int → Nat → AttemptOutcome
  retry_count : Nat
  concurrent_limit : Nat
  strategy : String
  test_case_ids : List Int

/-- The `TestExecutionResult` a finished per-case run appends
(`executions.py` lines 402-412 and 580-586): the fields computed by
`execute_single_test` plus the start and completion timestamps. -/
def mkCaseResult (c : Ctx) (id : Int) (t0 t1 : Nat) : TestExecutionResult :=
  let o := execute_single_test c.mock c.env id c.retry_count (c.oracle id)
  { test_case_id := id, status := o.status, response_time := o.response_time,
    actual_status := o.actual_status, actual_response := o.actual_response,
    error_message := o.error_message, started_at := t0,
    completed_at := some t1 }

/-- The priority partition of the mixed strategy, `executions.py` lines
348-357: each requested id is resolved through `get_test_case`; unresolvable
ids are filtered out (`if test_case:` at line 352); the resolved cases are
split on `priority in ["high", "critical"]`, and each partition keeps the
`id` field of the resolved case. -/
def mixedPartition (env : Env) (ids : List Int) : List Int × List Int :=
  let test_cases := ids.filterMap env.cases
  ((test_cases.filter (fun tc =>
      tc.priority == some "high" || tc.priority == some "critical")).map
    (fun tc => tc.id),
   (test_cases.filter (fun tc =>
      !(tc.priority == some "high" || tc.priority == some "critical"))).map
    (fun tc => tc.id))

/-- The strategy dispatch of `execute_batch_tests`, `executions.py` lines
247-252: `"parallel"` and `"serial"` are compared literally and every other
string falls into the mixed branch.  The first component is the list run
serially (in request order), the second the list dispatched through the
Concurrency Gate. -/
def dispatchIds (c : Ctx) : List Int × List Int :=
  if c.strategy = "parallel" then ([], c.test_case_ids)
  else if c.strategy = "serial" then (c.test_case_ids, [])
  else mixedPartition c.env c.test_case_ids

/-- Phases of a scheduler run: the serial portion is drained first; the
gated portion exists only after the task-creation loop of the parallel part
has run (`executions.py` lines 368-387 for mixed, 307-328 for parallel). -/
inductive Phase where
  | serialPhase
  | gatedPhase
deriving DecidableEq

/-- One execution's state as seen by the cooperative scheduler:
the record status, the scheduler phase, the undispatched serial ids, the
serially in-flight case, the ids not yet handed to the gated task set, the
created-but-not-started gated tasks, the gated tasks in flight with their
start times, the free slots of the `asyncio.Semaphore`, the accumulated
results, a logical clock, whether `execute_batch_tests` has run its
finalization, the ghost list of all case dispatches handed to the scheduler,
and the time the gated task set was created. -/
structure EngineState where
  status : ExecutionStatus
  phase : Phase
  serialQueue : List Int
  serialRunning : Option (Int × Nat)
  pendingNormal : List Int
  gateQueue : List Int
  running : List (Int × Nat)
  sem : Nat
  results : List TestExecutionResult
  clock : Nat
  finalized : Bool
  admitted : List Int
  gateOpenedAt : Option Nat
deriving DecidableEq

/-- The state in which `execute_batch_tests` starts a run: status `running`
(set unconditionally at `executions.py` line 241), the strategy's serial ids
queued, the strategy's parallel ids pending, the semaphore full, no results. -/
def initState (c : Ctx) : EngineState :=
  { status := .running, phase := .serialPhase, serialQueue := (dispatchIds c).1,
    serialRunning := none, pendingNormal := (dispatchIds c).2, gateQueue := [],
    running := [], sem := c.concurrent_limit, results := [], clock := 0,
    finalized := false, admitted := [], gateOpenedAt := none }

/-- Small-step semantics of one execution under the cooperative event loop.
Each step advances the logical clock.  `stopRequest` is the stop endpoint
taking effect on the running record; `serialStart`/`serialFinish` are the
serial loops of `execute_serial` and of the high-priority phase of
`execute_mixed` (the stop flag is checked before each dispatch, lines
335-341 and 360-365); `gateOpen` is the task-creation loop of
`execute_parallel`/`execute_mixed` (lines 307-324 and 368-383), which runs
without suspension points and therefore observes the stop flag once,
creating either no task or all of them; `gatedStart` acquires a semaphore
slot for a created task (`execute_test_with_semaphore`, lines 389-393) —
created tasks are not stop-checked; `gatedFinish` completes a gated task,
appends its result and releases the slot; `finalize` is the epilogue of
`execute_batch_tests` (lines 254-288), which runs once the strategy
coroutine has returned, i.e. once nothing is in flight and every queue is
drained or abandoned by a stop. -/
inductive Step (c : Ctx) : EngineState → EngineState → Prop
  | stopRequest (s : EngineState) :
      s.status = .running →
      Step c s { s with status := .stopped, clock := s.clock + 1 }
  | serialStart (s : EngineState) (id : Int) (rest : List Int) :
      s.status ≠ .stopped → s.phase = .serialPhase → s.serialRunning = none →
      s.serialQueue = id :: rest →
      Step c s { s with serialQueue := rest,
                        serialRunning := some (id, s.clock),
                        admitted := s.admitted ++ [id], clock := s.clock + 1 }
  | serialFinish (s : EngineState) (id : Int) (t0 : Nat) :
      s.serialRunning = some (id, t0) →
      Step c s { s with serialRunning := none,
                        results := s.results ++ [mkCaseResult c id t0 s.clock],
                        clock := s.clock + 1 }
  | gateOpen (s : EngineState) :
      s.phase = .serialPhase → s.serialRunning = none →
      (s.serialQueue = [] ∨ s.status = .stopped) →
      Step c s { s with phase := .gatedPhase,
                        gateQueue :=
                          if s.status = .stopped then [] else s.pendingNormal,
                        pendingNormal := [],
                        admitted := s.admitted ++
                          (if s.status = .stopped then [] else s.pendingNormal),
                        gateOpenedAt := some s.clock, clock := s.clock + 1 }
  | gatedStart (s : EngineState) (id : Int) (rest : List Int) (m : Nat) :
      s.phase = .gatedPhase → s.gateQueue = id :: rest → s.sem = m + 1 →
      Step c s { s with gateQueue := rest, sem := m,
                        running := s.running ++ [(id, s.clock)],
                        clock := s.clock + 1 }
  | gatedFinish (s : EngineState) (id : Int) (t0 : Nat)
      (l₁ l₂ : List (Int × Nat)) :
      s.running = l₁ ++ (id, t0) :: l₂ →
      Step c s { s with running := l₁ ++ l₂, sem := s.sem + 1,
                        results := s.results ++ [mkCaseResult c id t0 s.clock],
                        clock := s.clock + 1 }
  | finalize (s : EngineState) :
      s.finalized = false → s.phase = .gatedPhase → s.serialRunning = none →
      s.gateQueue = [] → s.running = [] →
      (s.serialQueue = [] ∨ s.status = .stopped) →
      Step c s { s with finalized := true,
                        status := finalizeStatus s.status s.results,
                        clock := s.clock + 1 }

/-- Reachability through scheduler steps. -/
inductive Reaches (c : Ctx) (s₀ : EngineState) : EngineState → Prop
  | refl : Reaches c s₀ s₀
  | tail {s t : EngineState} :
      Reaches c s₀ s → Step c s t → Reaches c s₀ t

/-- Number of per-case executions (Retry Wrapper calls) in flight. -/
def inflight (s : EngineState) : Nat :=
  (if s.serialRunning.isSome then 1 else 0) + s.running.length

/-- The id of the serially in-flight case, as a list. -/
def srList (s : EngineState) : List Int :=
  match s.serialRunning with
  | none => []
  | some p => [p.1]

/-- Multiset of all case ids still owed a result by the scheduler. -/
def queueMs (s : EngineState) : Multiset Int :=
  (s.serialQueue : Multiset Int) + (srList s : Multiset Int) +
    (s.pendingNormal : Multiset Int) + (s.gateQueue : Multiset Int) +
    ((s.running.map (fun p => p.1)) : Multiset Int)

/-- Modelled from the spec: `BatchExecutionRequest` is imported by
`src/api/routes/executions.py` from `src.models.schemas` but its class
declaration is not part of the available sources.  Per the spec (§3
`ExecutionRequest` and §7), it carries the batch parameters and its
validation — strategy ∈ {parallel, serial, mixed}, concurrency limit ≥ 1 —
is performed synchronously while parsing the request, before the route body
runs. -/
structure BatchExecutionRequest where
  project_id : Int
  test_case_ids : List Int
  concurrent_limit : Nat
  timeout : Nat
  retry_count : Nat
  execution_strategy : String
deriving DecidableEq

/-- Modelled from the spec: the validation constraint of
`BatchExecutionRequest` (§7: "Invalid execution parameters (e.g., unknown
strategy, concurrency_limit < 1) — rejected synchronously at create time";
§9: "reject unknown values synchronously"). -/
def validBatchRequest (r : BatchExecutionRequest) : Bool :=
  (r.execution_strategy ∈ ["parallel", "serial", "mixed"] : Bool) &&
    decide (1 ≤ r.concurrent_limit)

/-- The create endpoint, `executions.py` lines 74-117, combined with the
spec-modelled request validation: an invalid request is rejected before the
record is stored and before the background task is registered; a valid one
stores a `pending` record under a fresh id and registers the background run
(the returned flag). -/
def create_batch_execution (db : String → Option TestBatchExecution)
    (request : BatchExecutionRequest) (execution_id : String) (now : Nat) :
    APIResponseS × (String → Option TestBatchExecution) × Bool :=
  if validBatchRequest request then
    let execution : TestBatchExecution :=
      { execution_id := execution_id, project_id := request.project_id,
        test_case_ids := request.test_case_ids,
        concurrent_limit := request.concurrent_limit,
        timeout := request.timeout, retry_count := request.retry_count,
        execution_strategy := request.execution_strategy,
        status := .pending, results := [], summary := none,
        started_at := some now, completed_at := none }
    ({ success := true, message := "批量测试执行任务已创建" },
     fun k => if k = execution_id then some execution else db k, true)
  else
    ({ success := false, message := "无效的执行参数",
       error := some "invalid execution parameters" }, db, false)

/-- Disjointness of the two partitions handed to the scheduler: no case id
run in the serial portion also occurs in the gated portion. -/
def PartDisjoint (c : Ctx) : Prop :=
  ∀ x ∈ (dispatchIds c).1, x ∉ (dispatchIds c).2

/-- The inductive invariant of the scheduler's transition system. -/
structure EngInv (c : Ctx) (s : EngineState) : Prop where
  semInv : s.sem + s.running.length = c.concurrent_limit
  phaseSerial : s.phase = .serialPhase →
    s.running = [] ∧ s.gateQueue = [] ∧ s.gateOpenedAt = none
  phaseGated : s.phase = .gatedPhase →
    s.serialRunning = none ∧ s.pendingNormal = [] ∧ s.gateOpenedAt.isSome = true
  srPhase : s.serialRunning.isSome = true → s.phase = .serialPhase
  gateClock : ∀ g, s.gateOpenedAt = some g → g ≤ s.clock
  resCompletedClock : ∀ r ∈ s.results, ∀ t, r.completed_at = some t → t ≤ s.clock
  runAfterGate : ∀ p ∈ s.running, ∃ g, s.gateOpenedAt = some g ∧ g ≤ p.2
  srFromHigh : ∀ id t, s.serialRunning = some (id, t) → id ∈ (dispatchIds c).1
  sqFromHigh : ∀ id ∈ s.serialQueue, id ∈ (dispatchIds c).1
  pnFromNormal : ∀ id ∈ s.pendingNormal, id ∈ (dispatchIds c).2
  gqFromNormal : ∀ id ∈ s.gateQueue, id ∈ (dispatchIds c).2
  runFromNormal : ∀ p ∈ s.running, p.1 ∈ (dispatchIds c).2
  resHighCompleted : PartDisjoint c → ∀ r ∈ s.results,
    r.test_case_id ∈ (dispatchIds c).1 →
    ∀ g, s.gateOpenedAt = some g → ∀ t, r.completed_at = some t → t ≤ g
  resNormalStarted : PartDisjoint c → ∀ r ∈ s.results,
    r.test_case_id ∈ (dispatchIds c).2 →
    ∃ g, s.gateOpenedAt = some g ∧ g ≤ r.started_at
  countInv : s.status ≠ .stopped →
    ((s.results.map (fun r => r.test_case_id)) : Multiset Int) + queueMs s =
      ((dispatchIds c).1 : Multiset Int) + ((dispatchIds c).2 : Multiset Int)
  resErrUnresolved : ∀ r ∈ s.results, c.env.cases r.test_case_id = none →
    r.status = .error ∧ r.error_message = some "测试用例不存在"
  finStatus : s.finalized = false → s.status = .running ∨ s.status = .stopped
  finalizedInv : s.finalized = true →
    s.phase = .gatedPhase ∧ s.serialRunning = none ∧ s.gateQueue = [] ∧
      s.running = [] ∧ (s.serialQueue = [] ∨ s.status = .stopped) ∧
      s.status ≠ .running

/-- An environment whose stores are replaced only at one test-case id, used to
express that the mock branch never reads `expected_response`. -/
def envWithCase (env : Env) (id : Int) (tc : TestCaseData) : Env :=
  { env with cases := fun j => if j = id then some tc else env.cases j }

/-- An empty pair of stores. -/
def envEmpty : Env :=
  { cases := fun _ => none, projects := fun _ => none }

/-- An empty execution table. -/
def dbEmpty : String → Option TestBatchExecution := fun _ => none

/-- An attempt oracle that is never consulted (mock-mode runs). -/
def oracleUnused : Int → Nat → AttemptOutcome := fun _ _ => .raises "unused"

/-- Concrete test case with expected status 200. -/
def tcC1 : TestCaseData := { id := 1, endpoint := "/status" }

/-- Store holding only `tcC1`. -/
def envC1 : Env :=
  { cases := fun i => if i = 1 then some tcC1 else none,
    projects := fun _ => none }

/-- An oracle whose every attempt completes with HTTP 404. -/
def oracleC1 : Nat → AttemptOutcome := fun _ => .completes 404 ["text"] 12

/-- Concrete test case for the transport-error scenario. -/
def tcC7 : TestCaseData := { id := 5, endpoint := "/boom" }

/-- Store holding only `tcC7`. -/
def envC7 : Env :=
  { cases := fun i => if i = 5 then some tcC7 else none,
    projects := fun _ => none }

/-- An oracle whose every attempt raises, with distinct messages. -/
def oracleC7 : Nat → AttemptOutcome := fun k => .raises ("boom" ++ toString k)

/-- Concrete test case resolvable in mock mode, URL free of `"418"`. -/
def tcC10 : TestCaseData := { id := 3, endpoint := "/get" }

/-- Store holding only `tcC10`. -/
def envC10 : Env :=
  { cases := fun i => if i = 3 then some tcC10 else none,
    projects := fun _ => none }

/-- An invalid creation request: unknown strategy and zero concurrency. -/
def reqC4 : BatchExecutionRequest :=
  { project_id := 1, test_case_ids := [1, 2], concurrent_limit := 0,
    timeout := 30, retry_count := 0, execution_strategy := "bogus" }

/-- A concrete failed result. -/
def rFail : TestExecutionResult :=
  { test_case_id := 1, status := .failed, started_at := 0 }

/-- Context of a parallel run with limit 3. -/
def ctxC9 : Ctx :=
  { env := envEmpty, mock := true, oracle := oracleUnused, retry_count := 0,
    concurrent_limit := 3, strategy := "parallel",
    test_case_ids := [1, 2, 3, 4, 5] }

/-- Concrete test case used by the stop-semantics trace. -/
def tcC3 : TestCaseData := { id := 1, endpoint := "/a" }

/-- Store holding only `tcC3`. -/
def envC3 : Env :=
  { cases := fun i => if i = 1 then some tcC3 else none,
    projects := fun _ => none }

/-- Context of a serial run of the single case 1. -/
def ctxC3 : Ctx :=
  { env := envC3, mock := true, oracle := oracleUnused, retry_count := 0,
    concurrent_limit := 1, strategy := "serial", test_case_ids := [1] }

/-- Stop-trace state: initial. -/
def c3s0 : EngineState := initState ctxC3

/-- Stop-trace state: case 1 serially in flight. -/
def c3s1 : EngineState :=
  { c3s0 with
      serialQueue := []
      serialRunning := some (1, 0)
      admitted := [1]
      clock := 1 }

/-- Stop-trace state: stop endpoint has taken effect mid-flight. -/
def c3s2 : EngineState := { c3s1 with status := .stopped, clock := 2 }

/-- Stop-trace state: the in-flight case finished after the stop and appended
its result. -/
def c3s3 : EngineState :=
  { c3s2 with
      serialRunning := none
      results := [mkCaseResult ctxC3 1 0 2]
      clock := 3 }

/-- A running execution record. -/
def eC3running : TestBatchExecution :=
  { execution_id := "e-run", project_id := 1, test_case_ids := [1],
    concurrent_limit := 1, timeout := 30, retry_count := 0,
    execution_strategy := "serial", status := .running }

/-- A completed execution record. -/
def eC3completed : TestBatchExecution :=
  { execution_id := "e-done", project_id := 1, test_case_ids := [1],
    concurrent_limit := 1, timeout := 30, retry_count := 0,
    execution_strategy := "serial", status := .completed,
    results := [rFail] }

/-- Context of a serial run over one empty batch, for the terminal-stability
witness. -/
def ctxC5 : Ctx :=
  { env := envEmpty, mock := true, oracle := oracleUnused, retry_count := 0,
    concurrent_limit := 1, strategy := "serial", test_case_ids := [] }

/-- Terminal-stability trace: initial state. -/
def c5s0 : EngineState := initState ctxC5

/-- Terminal-stability trace: stopped before anything was dispatched. -/
def c5s1 : EngineState := { c5s0 with status := .stopped, clock := 1 }

/-- Terminal-stability trace: the gated task set is created (empty) while the
status stays stopped. -/
def c5s2 : EngineState :=
  { c5s1 with
      phase := .gatedPhase
      gateQueue := []
      admitted := []
      gateOpenedAt := some 1
      clock := 2 }

/-- Context of a mixed run over one unresolvable id. -/
def ctxC2x : Ctx :=
  { env := envEmpty, mock := true, oracle := oracleUnused, retry_count := 0,
    concurrent_limit := 2, strategy := "mixed", test_case_ids := [99] }

/-- Mixed-drop trace: initial state (both partitions empty because id 99 is
unresolvable). -/
def c2x0 : EngineState := initState ctxC2x

/-- Mixed-drop trace: after the (empty) gated task set is created. -/
def c2x1 : EngineState :=
  { c2x0 with
      phase := .gatedPhase
      gateQueue := []
      admitted := []
      gateOpenedAt := some 0
      clock := 1 }

/-- Mixed-drop trace: finalized with zero results. -/
def c2x2 : EngineState :=
  { c2x1 with finalized := true, status := .completed, clock := 2 }

/-- Context of a serial run over the single unresolvable id 7. -/
def ctxC2w : Ctx :=
  { env := envEmpty, mock := true, oracle := oracleUnused, retry_count := 0,
    concurrent_limit := 1, strategy := "serial", test_case_ids := [7] }

/-- Serial-error trace: initial state. -/
def c2w0 : EngineState := initState ctxC2w

/-- Serial-error trace: case 7 in flight. -/
def c2w1 : EngineState :=
  { c2w0 with
      serialQueue := []
      serialRunning := some (7, 0)
      admitted := [7]
      clock := 1 }

/-- Serial-error trace: the unresolvable case appended its error result. -/
def c2w2 : EngineState :=
  { c2w1 with
      serialRunning := none
      results := [mkCaseResult ctxC2w 7 0 1]
      clock := 2 }

/-- Serial-error trace: the (empty) gated task set is created. -/
def c2w3 : EngineState :=
  { c2w2 with
      phase := .gatedPhase
      gateQueue := []
      admitted := [7]
      gateOpenedAt := some 2
      clock := 3 }

/-- Serial-error trace: finalized; the error result makes the batch failed. -/
def c2w4 : EngineState :=
  { c2w3 with finalized := true, status := .failed, clock := 4 }

/-- High-priority test case of the mixed-ordering scenario. -/
def tcC6high : TestCaseData :=
  { id := 1, endpoint := "/a", priority := some "high" }

/-- Medium-priority test case of the mixed-ordering scenario. -/
def tcC6med : TestCaseData :=
  { id := 2, endpoint := "/b", priority := some "medium" }

/-- Store holding the two mixed-ordering cases. -/
def envC6 : Env :=
  { cases := fun i =>
      if i = 1 then some tcC6high else if i = 2 then some tcC6med else none,
    projects := fun _ => none }

/-- Context of a mixed run over cases 1 (high) and 2 (medium). -/
def ctxC6 : Ctx :=
  { env := envC6, mock := true, oracle := oracleUnused, retry_count := 0,
    concurrent_limit := 1, strategy := "mixed", test_case_ids := [1, 2] }

/-- Mixed-ordering trace: initial state. -/
def c6s0 : EngineState := initState ctxC6

/-- Mixed-ordering trace: high-priority case 1 serially in flight. -/
def c6s1 : EngineState :=
  { c6s0 with
      serialQueue := []
      serialRunning := some (1, 0)
      admitted := [1]
      clock := 1 }

/-- Mixed-ordering trace: case 1 completed. -/
def c6s2 : EngineState :=
  { c6s1 with
      serialRunning := none
      results := [mkCaseResult ctxC6 1 0 1]
      clock := 2 }

/-- Mixed-ordering trace: the gated task set over case 2 is created. -/
def c6s3 : EngineState :=
  { c6s2 with
      phase := .gatedPhase
      gateQueue := [2]
      pendingNormal := []
      admitted := [1, 2]
      gateOpenedAt := some 2
      clock := 3 }

/-- Mixed-ordering trace: case 2 acquired the semaphore slot. -/
def c6s4 : EngineState :=
  { c6s3 with gateQueue := [], sem := 0, running := [(2, 3)], clock := 4 }

/-- Mixed-ordering trace: case 2 completed. -/
def c6s5 : EngineState :=
  { c6s4 with
      running := []
      sem := 1
      results := [mkCaseResult ctxC6 1 0 1, mkCaseResult ctxC6 2 3 4]
      clock := 5 }

/-- The test-case id a finished case stamps on its result. -/
theorem mkCaseResult_test_case_id (c : Ctx) (id : Int) (t0 t1 : Nat) :
    (mkCaseResult c id t0 t1).test_case_id = id := rfl

/-- The start timestamp a finished case stamps on its result. -/
theorem mkCaseResult_started_at (c : Ctx) (id : Int) (t0 t1 : Nat) :
    (mkCaseResult c id t0 t1).started_at = t0 := rfl

/-- The completion timestamp a finished case stamps on its result. -/
theorem mkCaseResult_completed_at (c : Ctx) (id : Int) (t0 t1 : Nat) :
    (mkCaseResult c id t0 t1).completed_at = some t1 := rfl

/-- An unresolvable test case short-circuits to the `error` result of
`executions.py` lines 400-414. -/
theorem mkCaseResult_unresolved (c : Ctx) (id : Int) (t0 t1 : Nat)
    (h : c.env.cases id = none) :
    (mkCaseResult c id t0 t1).status = .error ∧
      (mkCaseResult c id t0 t1).error_message = some "测试用例不存在" := by
  simp [mkCaseResult, execute_single_test, h]

/-- A stopped execution stays stopped under every scheduler step. -/
theorem step_stopped_persists {c : Ctx} {s t : EngineState}
    (hst : Step c s t) (h : s.status = .stopped) : t.status = .stopped := by
  cases hst with
  | stopRequest hrun => rw [h] at hrun
  | serialStart id rest h1 h2 h3 h4 => exact h
  | serialFinish id t0 h1 => exact h
  | gateOpen h1 h2 h3 => exact h
  | gatedStart id rest m h1 h2 h3 => exact h
  | gatedFinish id t0 l1 l2 h1 => exact h
  | finalize h1 h2 h3 h4 h5 h6 => simp [finalizeStatus, h]

/-- The invariant holds in the initial state of every run. -/
theorem inv_init (c : Ctx) : EngInv c (initState c) := by
  constructor <;> simp [initState, queueMs, srList]

/-- Coercion of a list cons into a multiset sum. -/
theorem coe_cons_ms (a : Int) (l : List Int) :
    ((a :: l : List Int) : Multiset Int) = {a} + (l : Multiset Int) := by
  rw [← Multiset.cons_coe, ← Multiset.singleton_add]

/-- Coercion of a list append into a multiset sum. -/
theorem coe_append_ms (l1 l2 : List Int) :
    ((l1 ++ l2 : List Int) : Multiset Int) =
      (l1 : Multiset Int) + (l2 : Multiset Int) :=
  (Multiset.coe_add l1 l2).symm

/-- No scheduler step is enabled once the run has been finalized. -/
theorem no_step_of_finalized {c : Ctx} {s t : EngineState} (hs : EngInv c s)
    (hf : s.finalized = true) (hst : Step c s t) : False := by
  obtain ⟨hph, hsr, hgq, hrun, _, hnr⟩ := hs.finalizedInv hf
  cases hst with
  | stopRequest h => exact hnr h
  | serialStart id rest h1 h2 h3 h4 =>
    rw [hph] at h2; exact absurd h2 (by decide)
  | serialFinish id t0 h1 =>
    rw [hsr] at h1; cases h1
  | gateOpen h1 h2 h3 =>
    rw [hph] at h1; exact absurd h1 (by decide)
  | gatedStart id rest m h1 h2 h3 =>
    rw [hgq] at h2; cases h2
  | gatedFinish id t0 l1 l2 h1 =>
    rw [hrun] at h1; simp at h1
  | finalize h1 h2 h3 h4 h5 h6 =>
    rw [hf] at h1; cases h1

/-- The inductive invariant is preserved by every scheduler step. -/
theorem inv_step {c : Ctx} {s t : EngineState} (hs : EngInv c s)
    (hst : Step c s t) : EngInv c t := by
  by_cases hfin : s.finalized = true
  · exact (no_step_of_finalized hs hfin hst).elim
  have hf0 : s.finalized = false := by simpa using hfin
  cases hst with
  | stopRequest hrun =>
    refine ⟨hs.semInv, hs.phaseSerial, hs.phaseGated, hs.srPhase,
      fun g hg => Nat.le_succ_of_le (hs.gateClock g hg),
      fun r hr u hu => Nat.le_succ_of_le (hs.resCompletedClock r hr u hu),
      hs.runAfterGate, hs.srFromHigh, hs.sqFromHigh, hs.pnFromNormal,
      hs.gqFromNormal, hs.runFromNormal, hs.resHighCompleted,
      hs.resNormalStarted, ?_, hs.resErrUnresolved, fun _ => Or.inr rfl, ?_⟩
    · intro hns; exact absurd rfl hns
    · intro hf; exact absurd (hf0.symm.trans hf) (by decide)
  | serialStart id rest h1 h2 h3 h4 =>
    refine ⟨hs.semInv, fun _ => hs.phaseSerial h2,
      fun hph => absurd (h2.symm.trans hph) (by decide),
      fun _ => h2,
      fun g hg => Nat.le_succ_of_le (hs.gateClock g hg),
      fun r hr u hu => Nat.le_succ_of_le (hs.resCompletedClock r hr u hu),
      hs.runAfterGate, ?_, ?_, hs.pnFromNormal, hs.gqFromNormal,
      hs.runFromNormal, hs.resHighCompleted, hs.resNormalStarted, ?_,
      hs.resErrUnresolved, fun _ => hs.finStatus hf0,
      fun hf => absurd (hf0.symm.trans hf) (by decide)⟩
    · intro id' t' h
      have h' : some (id, s.clock) = some (id', t') := h
      injection h' with h''
      injection h'' with ha hb
      subst ha
      exact hs.sqFromHigh id (by rw [h4]; exact List.mem_cons_self id rest)
    · intro x hx
      have hx' : x ∈ rest := hx
      exact hs.sqFromHigh x (by rw [h4]; exact List.mem_cons_of_mem id hx')
    · intro hns
      have hns' : s.status ≠ .stopped := hns
      have h0 := hs.countInv hns'
      simp only [queueMs, srList, h3, h4, coe_cons_ms, coe_append_ms,
        Multiset.coe_nil, add_zero, zero_add] at h0 ⊢
      rw [← h0]
      abel
  | serialFinish id t0 h1 =>
    refine ⟨hs.semInv, fun h => hs.phaseSerial h, ?_, ?_,
      fun g hg => Nat.le_succ_of_le (hs.gateClock g hg), ?_,
      hs.runAfterGate, ?_, hs.sqFromHigh, hs.pnFromNormal, hs.gqFromNormal,
      hs.runFromNormal, ?_, ?_, ?_, ?_, fun _ => hs.finStatus hf0,
      fun hf => absurd (hf0.symm.trans hf) (by decide)⟩
    · intro h
      have h' := hs.phaseGated h
      exact ⟨rfl, h'.2.1, h'.2.2⟩
    · intro h
      exact absurd (show (none : Option (Int × Nat)).isSome = true from h)
        (by decide)
    · intro r hr u hu
      have hr' : r ∈ s.results ++ [mkCaseResult c id t0 s.clock] := hr
      rcases List.mem_append.mp hr' with h | h
      · exact Nat.le_succ_of_le (hs.resCompletedClock r h u hu)
      · have he : r = mkCaseResult c id t0 s.clock := by simpa using h
        subst he
        have hu' : some s.clock = some u := hu
        injection hu' with hu''
        show u ≤ s.clock + 1
        omega
    · intro i u h
      have h' : (none : Option (Int × Nat)) = some (i, u) := h
      cases h'
    · intro hd r hr hmemH g hg u hu
      have hr' : r ∈ s.results ++ [mkCaseResult c id t0 s.clock] := hr
      rcases List.mem_append.mp hr' with h | h
      · exact hs.resHighCompleted hd r h hmemH g hg u hu
      · have he : r = mkCaseResult c id t0 s.clock := by simpa using h
        subst he
        have hph := hs.srPhase (by rw [h1]; rfl)
        have hnone := (hs.phaseSerial hph).2.2
        have hg' : s.gateOpenedAt = some g := hg
        rw [hnone] at hg'
        cases hg'
    · intro hd r hr hmemN
      have hr' : r ∈ s.results ++ [mkCaseResult c id t0 s.clock] := hr
      rcases List.mem_append.mp hr' with h | h
      · exact hs.resNormalStarted hd r h hmemN
      · have he : r = mkCaseResult c id t0 s.clock := by simpa using h
        subst he
        have hidH : id ∈ (dispatchIds c).1 := hs.srFromHigh id t0 h1
        exact absurd hmemN (hd id hidH)
    · intro hns
      have hns' : s.status ≠ .stopped := hns
      have h0 := hs.countInv hns'
      simp only [queueMs, srList, h1, List.map_append, List.map_cons,
        List.map_nil, mkCaseResult_test_case_id, coe_cons_ms, coe_append_ms,
        Multiset.coe_nil, add_zero, zero_add] at h0 ⊢
      rw [← h0]
      abel
    · intro r hr hnone
      have hr' : r ∈ s.results ++ [mkCaseResult c id t0 s.clock] := hr
      rcases List.mem_append.mp hr' with h | h
      · exact hs.resErrUnresolved r h hnone
      · have he : r = mkCaseResult c id t0 s.clock := by simpa using h
        subst he
        exact mkCaseResult_unresolved c id t0 s.clock hnone
  | gateOpen h1 h2 h3 =>
    refine ⟨hs.semInv, ?_, ?_, ?_, ?_,
      fun r hr u hu => Nat.le_succ_of_le (hs.resCompletedClock r hr u hu),
      ?_, hs.srFromHigh, hs.sqFromHigh, ?_, ?_, hs.runFromNormal, ?_, ?_, ?_,
      hs.resErrUnresolved, fun _ => hs.finStatus hf0,
      fun hf => absurd (hf0.symm.trans hf) (by decide)⟩
    · intro h
      exact absurd (show Phase.gatedPhase = Phase.serialPhase from h)
        (by decide)
    · intro _
      exact ⟨h2, rfl, rfl⟩
    · intro h
      have h' : s.serialRunning.isSome = true := h
      rw [h2] at h'
      exact absurd h' (by decide)
    · intro g hg
      have hg' : some s.clock = some g := hg
      injection hg' with h
      show g ≤ s.clock + 1
      omega
    · intro p hp
      have hp' : p ∈ s.running := hp
      rw [(hs.phaseSerial h1).1] at hp'
      exact absurd hp' (List.not_mem_nil p)
    · intro x hx
      exact absurd hx (List.not_mem_nil x)
    · intro x hx
      have hx' : x ∈ (if s.status = .stopped then ([] : List Int)
          else s.pendingNormal) := hx
      by_cases hstp : s.status = .stopped
      · rw [if_pos hstp] at hx'
        exact absurd hx' (List.not_mem_nil x)
      · rw [if_neg hstp] at hx'
        exact hs.pnFromNormal x hx'
    · intro hd r hr hmemH g hg u hu
      have hg' : some s.clock = some g := hg
      injection hg' with hgc
      exact hgc ▸ hs.resCompletedClock r hr u hu
    · intro hd r hr hmemN
      obtain ⟨g', hg', _⟩ := hs.resNormalStarted hd r hr hmemN
      rw [(hs.phaseSerial h1).2.2] at hg'
      cases hg'
    · intro hns
      have hns' : s.status ≠ .stopped := hns
      have h0 := hs.countInv hns'
      have hgq0 := (hs.phaseSerial h1).2.1
      simp only [queueMs, srList, h2, hgq0, Multiset.coe_nil, add_zero,
        zero_add] at h0
      simp only [queueMs, srList, h2, if_neg hns', Multiset.coe_nil,
        add_zero, zero_add]
      rw [← h0]
  | gatedStart id rest m h1 h2 h3 =>
    refine ⟨?_, ?_, ?_, ?_,
      fun g hg => Nat.le_succ_of_le (hs.gateClock g hg),
      fun r hr u hu => Nat.le_succ_of_le (hs.resCompletedClock r hr u hu),
      ?_, hs.srFromHigh, hs.sqFromHigh, hs.pnFromNormal, ?_, ?_,
      hs.resHighCompleted, hs.resNormalStarted, ?_, hs.resErrUnresolved,
      fun _ => hs.finStatus hf0,
      fun hf => absurd (hf0.symm.trans hf) (by decide)⟩
    · have h0 := hs.semInv
      rw [h3] at h0
      have hlen : (s.running ++ [(id, s.clock)]).length = s.running.length + 1 := by
        simp
      show m + (s.running ++ [(id, s.clock)]).length = c.concurrent_limit
      omega
    · intro h
      exact absurd (h.symm.trans h1).symm (by decide)
    · intro _
      exact hs.phaseGated h1
    · intro h
      have h' : s.serialRunning.isSome = true := h
      rw [(hs.phaseGated h1).1] at h'
      exact absurd h' (by decide)
    · intro p hp
      have hp' : p ∈ s.running ++ [(id, s.clock)] := hp
      rcases List.mem_append.mp hp' with h | h
      · exact hs.runAfterGate p h
      · have he : p = (id, s.clock) := by simpa using h
        subst he
        obtain ⟨g, hg⟩ := Option.isSome_iff_exists.mp (hs.phaseGated h1).2.2
        exact ⟨g, hg, hs.gateClock g hg⟩
    · intro x hx
      have hx' : x ∈ rest := hx
      exact hs.gqFromNormal x (by rw [h2]; exact List.mem_cons_of_mem id hx')
    · intro p hp
      have hp' : p ∈ s.running ++ [(id, s.clock)] := hp
      rcases List.mem_append.mp hp' with h | h
      · exact hs.runFromNormal p h
      · have he : p = (id, s.clock) := by simpa using h
        subst he
        exact hs.gqFromNormal id (by rw [h2]; exact List.mem_cons_self id rest)
    · intro hns
      have hns' : s.status ≠ .stopped := hns
      have h0 := hs.countInv hns'
      simp only [queueMs, srList, h2, List.map_append, List.map_cons,
        List.map_nil, coe_cons_ms, coe_append_ms, Multiset.coe_nil, add_zero,
        zero_add] at h0 ⊢
      rw [← h0]
      abel
  | gatedFinish id t0 l1 l2 h1 =>
    refine ⟨?_, ?_, ?_, hs.srPhase,
      fun g hg => Nat.le_succ_of_le (hs.gateClock g hg), ?_, ?_,
      hs.srFromHigh, hs.sqFromHigh, hs.pnFromNormal, hs.gqFromNormal, ?_,
      ?_, ?_, ?_, ?_, fun _ => hs.finStatus hf0,
      fun hf => absurd (hf0.symm.trans hf) (by decide)⟩
    · have h0 := hs.semInv
      rw [h1] at h0
      have hlen : (l1 ++ (id, t0) :: l2).length = l1.length + l2.length + 1 := by
        simp
        omega
      rw [hlen] at h0
      show s.sem + 1 + (l1 ++ l2).length = c.concurrent_limit
      have hlen2 : (l1 ++ l2).length = l1.length + l2.length := by simp
      omega
    · intro h
      have h' := (hs.phaseSerial h).1
      rw [h1] at h'
      simp at h'
    · intro h
      have h' := hs.phaseGated h
      exact ⟨h'.1, h'.2.1, h'.2.2⟩
    · intro r hr u hu
      have hr' : r ∈ s.results ++ [mkCaseResult c id t0 s.clock] := hr
      rcases List.mem_append.mp hr' with h | h
      · exact Nat.le_succ_of_le (hs.resCompletedClock r h u hu)
      · have he : r = mkCaseResult c id t0 s.clock := by simpa using h
        subst he
        have hu' : some s.clock = some u := hu
        injection hu' with hu''
        show u ≤ s.clock + 1
        omega
    · intro p hp
      have hp' : p ∈ l1 ++ l2 := hp
      have hmem : p ∈ s.running := by
        rw [h1]
        rcases List.mem_append.mp hp' with h | h
        · exact List.mem_append_left _ h
        · exact List.mem_append_right _ (List.mem_cons_of_mem _ h)
      exact hs.runAfterGate p hmem
    · intro p hp
      have hp' : p ∈ l1 ++ l2 := hp
      have hmem : p ∈ s.running := by
        rw [h1]
        rcases List.mem_append.mp hp' with h | h
        · exact List.mem_append_left _ h
        · exact List.mem_append_right _ (List.mem_cons_of_mem _ h)
      exact hs.runFromNormal p hmem
    · intro hd r hr hmemH g hg u hu
      have hr' : r ∈ s.results ++ [mkCaseResult c id t0 s.clock] := hr
      rcases List.mem_append.mp hr' with h | h
      · exact hs.resHighCompleted hd r h hmemH g hg u hu
      · have he : r = mkCaseResult c id t0 s.clock := by simpa using h
        subst he
        have hidmem : (id, t0) ∈ s.running := by
          rw [h1]
          exact List.mem_append_right _ (List.mem_cons_self _ _)
        have hidN := hs.runFromNormal (id, t0) hidmem
        exact absurd hidN (hd id hmemH)
    · intro hd r hr hmemN
      have hr' : r ∈ s.results ++ [mkCaseResult c id t0 s.clock] := hr
      rcases List.mem_append.mp hr' with h | h
      · exact hs.resNormalStarted hd r h hmemN
      · have he : r = mkCaseResult c id t0 s.clock := by simpa using h
        subst he
        have hidmem : (id, t0) ∈ s.running := by
          rw [h1]
          exact List.mem_append_right _ (List.mem_cons_self _ _)
        obtain ⟨g, hg, hle⟩ := hs.runAfterGate (id, t0) hidmem
        exact ⟨g, hg, hle⟩
    · intro hns
      have hns' : s.status ≠ .stopped := hns
      have h0 := hs.countInv hns'
      simp only [queueMs, srList, h1, List.map_append, List.map_cons,
        List.map_nil, mkCaseResult_test_case_id, coe_cons_ms, coe_append_ms,
        Multiset.coe_nil, add_zero, zero_add] at h0 ⊢
      rw [← h0]
      abel
    · intro r hr hnone
      have hr' : r ∈ s.results ++ [mkCaseResult c id t0 s.clock] := hr
      rcases List.mem_append.mp hr' with h | h
      · exact hs.resErrUnresolved r h hnone
      · have he : r = mkCaseResult c id t0 s.clock := by simpa using h
        subst he
        exact mkCaseResult_unresolved c id t0 s.clock hnone
  | finalize h1 h2 h3 h4 h5 h6 =>
    refine ⟨hs.semInv, ?_, fun _ => hs.phaseGated h2, ?_,
      fun g hg => Nat.le_succ_of_le (hs.gateClock g hg),
      fun r hr u hu => Nat.le_succ_of_le (hs.resCompletedClock r hr u hu),
      ?_, ?_, hs.sqFromHigh, hs.pnFromNormal, hs.gqFromNormal,
      hs.runFromNormal, hs.resHighCompleted, hs.resNormalStarted, ?_,
      hs.resErrUnresolved, ?_, ?_⟩
    · intro h
      exact absurd (h.symm.trans h2).symm (by decide)
    · intro h
      have h' : s.serialRunning.isSome = true := h
      rw [h3] at h'
      exact absurd h' (by decide)
    · intro p hp
      have hp' : p ∈ s.running := hp
      rw [h5] at hp'
      exact absurd hp' (List.not_mem_nil p)
    · intro i u h
      have h' : s.serialRunning = some (i, u) := h
      rw [h3] at h'
      cases h'
    · intro hns
      have hpre : s.status ≠ .stopped := by
        intro hstp
        exact hns (by simp [finalizeStatus, hstp])
      exact hs.countInv hpre
    · intro h
      have h' : (true : Bool) = false := h
      cases h'
    · intro _
      refine ⟨h2, h3, h4, h5, ?_, ?_⟩
      · rcases h6 with h | h
        · exact Or.inl h
        · exact Or.inr (by simp [finalizeStatus, h])
      · show finalizeStatus s.status s.results ≠ .running
        by_cases hstp : s.status = .stopped
        · simp [finalizeStatus, hstp]
        · by_cases hany :
            s.results.any (fun r => r.status == .failed || r.status == .error) = true
          · simp [finalizeStatus, hstp, hany]
          · simp [finalizeStatus, hstp, hany]

/-- Every state reachable from the initial state satisfies the invariant. -/
theorem inv_reaches {c : Ctx} {s : EngineState}
    (h : Reaches c (initState c) s) : EngInv c s := by
  induction h with
  | refl => exact inv_init c
  | tail h1 h2 ih => exact inv_step ih h2

/-- C8: the summary returned by the results query satisfies, for every
execution and every results list: `total` = number of requested test-case
ids, `completed` = number of accumulated results, `passed`/`failed`/`error`/
`skipped` = the respective status counts, `pass_rate` = passed / completed ×
100 (0 when completed = 0), `avg_response_time` = mean of the non-null
latencies (0 when none); recomputing it from the same results list any
number of times yields identical output. -/
theorem c8_summary_invariants (ids : List Int)
    (rs : List TestExecutionResult) :
    (computeSummary ids rs).total = ids.length ∧
    (computeSummary ids rs).completed = rs.length ∧
    (computeSummary ids rs).passed = rs.countP (fun r => r.status == .passed) ∧
    (computeSummary ids rs).failed = rs.countP (fun r => r.status == .failed) ∧
    (computeSummary ids rs).error = rs.countP (fun r => r.status == .error) ∧
    (computeSummary ids rs).skipped =
      rs.countP (fun r => r.status == .skipped) ∧
    (computeSummary ids rs).pass_rate =
      (if rs.length = 0 then 0 else
        ((rs.countP (fun r => r.status == .passed) : ℚ) * 100) /
          (rs.length : ℚ)) ∧
    (computeSummary ids rs).avg_response_time =
      (if rs.filterMap (fun r => r.response_time) = [] then 0 else
        (rs.filterMap (fun r => r.response_time)).sum /
          ((rs.filterMap (fun r => r.response_time)).length : ℚ)) ∧
    computeSummary ids rs = computeSummary ids rs := by
  refine ⟨rfl, rfl, ?_, ?_, ?_, ?_, ?_, ?_, rfl⟩
  · simp [computeSummary, List.countP_eq_length_filter]
  · simp [computeSummary, List.countP_eq_length_filter]
  · simp [computeSummary, List.countP_eq_length_filter]
  · simp [computeSummary, List.countP_eq_length_filter]
  · by_cases h : rs.length = 0
    · simp [computeSummary, h]
    · have hpos : 0 < rs.length := Nat.pos_of_ne_zero h
      simp [computeSummary, h, hpos, List.countP_eq_length_filter]
      rw [div_mul_eq_mul_div]
  · by_cases h : rs.filterMap (fun r => r.response_time) = []
    · simp [computeSummary, h]
    · simp [computeSummary, h]

/-- C4: invalid execution parameters — an execution strategy outside
{parallel, serial, mixed} or a concurrency limit < 1 — are rejected
synchronously at create time, before any execution record is persisted and
before any background run is registered.  (The validation itself is the
spec-modelled `validBatchRequest`, since `BatchExecutionRequest` is not
declared in the available sources.) -/
theorem c4_invalid_params_rejected (db : String → Option TestBatchExecution)
    (req : BatchExecutionRequest) (eid : String) (now : Nat)
    (h : validBatchRequest req = false) :
    (create_batch_execution db req eid now).1.success = false ∧
    (create_batch_execution db req eid now).2.1 = db ∧
    (create_batch_execution db req eid now).2.2 = false := by
  simp [create_batch_execution, h]

/-- Witness for C4 at the concrete invalid request `reqC4`
(strategy "bogus", concurrency limit 0). -/
theorem c4_invalid_params_rejected_witness :
    validBatchRequest reqC4 = false ∧
    (create_batch_execution dbEmpty reqC4 "e1" 0).1.success = false ∧
    (create_batch_execution dbEmpty reqC4 "e1" 0).2.1 = dbEmpty ∧
    (create_batch_execution dbEmpty reqC4 "e1" 0).2.2 = false := by
  have h : validBatchRequest reqC4 = false := by decide
  have h2 := c4_invalid_params_rejected dbEmpty reqC4 "e1" 0 h
  exact ⟨h, h2.1, h2.2.1, h2.2.2⟩

/-- C5: when the background run finishes and the execution was not externally
stopped, the final status is `failed` if and only if at least one accumulated
result has status `failed` or `error`, and `completed` otherwise; and once a
terminal status has been reached, no scheduler step changes it. -/
theorem c5_finalization :
    (∀ (cur : ExecutionStatus) (rs : List TestExecutionResult),
        cur ≠ .stopped →
        ((finalizeStatus cur rs = .failed ↔
            ∃ r ∈ rs, r.status = .failed ∨ r.status = .error) ∧
         (finalizeStatus cur rs = .completed ↔
            ¬ ∃ r ∈ rs, r.status = .failed ∨ r.status = .error))) ∧
    (∀ (c : Ctx) (s t : EngineState), Reaches c (initState c) s →
        (s.status = .completed ∨ s.status = .failed ∨ s.status = .stopped) →
        Step c s t → t.status = s.status) := by
  constructor
  · intro cur rs hcur
    have hiff : rs.any (fun r => r.status == .failed || r.status == .error)
        = true ↔ ∃ r ∈ rs, r.status = .failed ∨ r.status = .error := by
      simp [List.any_eq_true]
    by_cases hany :
        rs.any (fun r => r.status == .failed || r.status == .error) = true
    · constructor
      · simp only [finalizeStatus, if_neg hcur, if_pos hany]
        exact ⟨fun _ => hiff.mp hany, fun _ => trivial⟩
      · simp only [finalizeStatus, if_neg hcur, if_pos hany]
        constructor
        · intro h
          exact absurd h (by decide)
        · intro h
          exact absurd (hiff.mp hany) h
    · constructor
      · simp only [finalizeStatus, if_neg hcur, if_neg hany]
        constructor
        · intro h
          exact absurd h (by decide)
        · intro hex
          exact absurd (hiff.mpr hex) hany
      · simp only [finalizeStatus, if_neg hcur, if_neg hany]
        exact ⟨fun _ hex => hany (hiff.mpr hex), fun _ => trivial⟩
  · intro c s t hreach hterm hst
    have hinv := inv_reaches hreach
    cases hst with
    | stopRequest h =>
      rcases hterm with h' | h' | h' <;> (rw [h'] at h; cases h)
    | serialStart id rest h1 h2 h3 h4 => rfl
    | serialFinish id t0 h1 => rfl
    | gateOpen h1 h2 h3 => rfl
    | gatedStart id rest m h1 h2 h3 => rfl
    | gatedFinish id t0 l1 l2 h1 => rfl
    | finalize h1 h2 h3 h4 h5 h6 =>
      rcases hinv.finStatus h1 with hr | hr
      · rcases hterm with h' | h' | h' <;> (rw [h'] at hr; cases hr)
      · show finalizeStatus s.status s.results = s.status
        rw [hr]
        simp [finalizeStatus]

/-- Witness for C5: the iff at an empty and at a failed result list, and
terminal stability along the concrete stopped trace `c5s1 → c5s2`. -/
theorem c5_finalization_witness :
    finalizeStatus .running [] = .completed ∧
    finalizeStatus .running [rFail] = .failed ∧
    c5s2.status = c5s1.status := by
  refine ⟨?_, ?_, ?_⟩
  · exact (c5_finalization.1 .running [] (by decide)).2.mpr (by simp)
  · exact (c5_finalization.1 .running [rFail] (by decide)).1.mpr
      ⟨rFail, by simp, Or.inl rfl⟩
  · exact c5_finalization.2 ctxC5 c5s1 c5s2
      (Reaches.tail Reaches.refl (Step.stopRequest c5s0 (by decide)))
      (Or.inr (Or.inr (by decide)))
      (Step.gateOpen c5s1 (by decide) (by decide) (Or.inl (by decide)))

/-- C9: at every reachable instant of a run whose concurrency limit is at
least 1, the number of simultaneously in-flight per-case executions (Retry
Wrapper calls) is at most the configured concurrency limit, under every
strategy. -/
theorem c9_concurrency_bound (c : Ctx) (s : EngineState)
    (hr : Reaches c (initState c) s) (hlim : 1 ≤ c.concurrent_limit) :
    inflight s ≤ c.concurrent_limit := by
  have hinv := inv_reaches hr
  have hsem := hinv.semInv
  unfold inflight
  by_cases hsr : s.serialRunning.isSome = true
  · have hph := hinv.srPhase hsr
    have hrun := (hinv.phaseSerial hph).1
    rw [hsr, hrun]
    simpa using hlim
  · have hsr' : s.serialRunning.isSome = false := by simpa using hsr
    rw [hsr']
    simp
    omega

/-- Witness for C9 at the concrete parallel context `ctxC9` (limit 3). -/
theorem c9_concurrency_bound_witness :
    inflight (initState ctxC9) ≤ ctxC9.concurrent_limit :=
  c9_concurrency_bound ctxC9 (initState ctxC9) Reaches.refl (by decide)

/-- When every available attempt raises, the retry loop of
`execute_single_test` performs one Target Invoker call per attempt, sleeps
the backoff between attempts, and ends with the last exception's message. -/
theorem runAttempts_all_raise (tc : TestCaseData)
    (oracle : Nat → AttemptOutcome) (expected : Int)
    (hm : tc.method ∈ supportedMethods) :
    ∀ (remaining attempt : Nat),
      (∀ j, j ≤ remaining → ∃ m, oracle (attempt + j) = .raises m) →
      ∀ mlast, oracle (attempt + remaining) = .raises mlast →
      runAttempts tc oracle expected attempt remaining =
        { status := .error, error_message := some ("执行异常: " ++ mlast),
          invokerCalls := remaining + 1, backoffSleeps := remaining } := by
  intro remaining
  induction remaining with
  | zero =>
    intro attempt h mlast hlast
    rw [Nat.add_zero] at hlast
    simp [runAttempts, perAttempt, hm, hlast]
  | succ r ih =>
    intro attempt h mlast hlast
    obtain ⟨m0, hm0⟩ := h 0 (Nat.zero_le _)
    rw [Nat.add_zero] at hm0
    have hshift : ∀ j, j ≤ r → ∃ m, oracle (attempt + 1 + j) = .raises m := by
      intro j hj
      have heq : attempt + 1 + j = attempt + (j + 1) := by omega
      rw [heq]
      exact h (j + 1) (Nat.succ_le_succ hj)
    have hlast' : oracle (attempt + 1 + r) = .raises mlast := by
      have heq : attempt + 1 + r = attempt + (r + 1) := by omega
      rw [heq]
      exact hlast
    have hrec := ih (attempt + 1) hshift mlast hlast'
    simp [runAttempts, perAttempt, hm, hm0, hrec]
    omega

/-- C7: for a resolvable test case issued with a supported HTTP method whose
every attempt raises a transport error, the Target Invoker is called exactly
`retry_count + 1` times, and the final recorded outcome has status `error`
carrying the last exception's message. -/
theorem c7_transport_error_retry (env : Env) (id : Int) (tc : TestCaseData)
    (retry : Nat) (oracle : Nat → AttemptOutcome)
    (hc : env.cases id = some tc) (hm : tc.method ∈ supportedMethods)
    (hall : ∀ j, j ≤ retry → ∃ m, oracle j = .raises m)
    (mlast : String) (hlast : oracle retry = .raises mlast) :
    (execute_single_test false env id retry oracle).invokerCalls = retry + 1 ∧
    (execute_single_test false env id retry oracle).status = .error ∧
    (execute_single_test false env id retry oracle).error_message =
      some ("执行异常: " ++ mlast) := by
  have haux := runAttempts_all_raise tc oracle tc.expected_status hm retry 0
    (fun j hj => by simpa using hall j hj) mlast (by simpa using hlast)
  simp [execute_single_test, hc, haux]

/-- Witness for C7 at the concrete case `tcC7` with retry count 2 and an
oracle raising "boom0", "boom1", "boom2". -/
theorem c7_transport_error_retry_witness :
    (execute_single_test false envC7 5 2 oracleC7).invokerCalls = 2 + 1 ∧
    (execute_single_test false envC7 5 2 oracleC7).status = .error ∧
    (execute_single_test false envC7 5 2 oracleC7).error_message =
      some ("执行异常: " ++ "boom2") :=
  c7_transport_error_retry envC7 5 tcC7 2 oracleC7 (by decide) (by decide)
    (fun j _ => ⟨"boom" ++ toString j, rfl⟩) "boom2" (by decide)

/-- C1 (code evaluation at the failing input): in the real-HTTP branch, a
test case with `expected_status = 200`, first attempt completing with actual
status 404 and `retry_count = 1` performs exactly ONE Target Invoker call —
the loop sleeps the 1-second backoff and then exits unconditionally (the
`break` at `executions.py` line 568), so no second attempt is made; the
final status is `failed` with the status-mismatch message. -/
theorem c1_status_mismatch_not_retried :
    (execute_single_test false envC1 1 1 oracleC1).invokerCalls = 1 ∧
    (execute_single_test false envC1 1 1 oracleC1).status = .failed ∧
    (execute_single_test false envC1 1 1 oracleC1).backoffSleeps = 1 ∧
    (execute_single_test false envC1 1 1 oracleC1).error_message =
      some "状态码不匹配: 期望 200, 实际 404" := by
  decide

/-- A mock attempt whose URL is free of "418" always passes with the
simulated 50 ms latency and the expected status echoed back. -/
theorem mockAttempt_no418 (url : String) (e : Int)
    (h : containsSub url "418" = false) :
    mockAttempt url e =
      { status := .passed, response_time := some 50, actual_status := some e,
        actual_response := some mockResponseKeys, invokerCalls := 0,
        backoffSleeps := 0 } := by
  simp [mockAttempt, h]

/-- A mock attempt whose URL contains "418" reports actual status 418 and
performs no invoker call. -/
theorem mockAttempt_418 (url : String) (e : Int)
    (h : containsSub url "418" = true) :
    (mockAttempt url e).actual_status = some 418 ∧
      (mockAttempt url e).invokerCalls = 0 := by
  by_cases he : (418 : Int) = e
  · simp [mockAttempt, h, ← he]
  · simp [mockAttempt, h, he]

/-- In mock mode, a resolved test case reduces to one simulated attempt. -/
theorem execute_single_test_mock (env : Env) (id : Int) (tc : TestCaseData)
    (retry : Nat) (o : Nat → AttemptOutcome) (hc : env.cases id = some tc) :
    execute_single_test MOCK_MODE env id retry o =
      mockAttempt (resolveBaseUrl env tc.project_id ++ tc.endpoint)
        tc.expected_status := by
  simp [execute_single_test, hc, MOCK_MODE]

/-- C10: under the shipped default configuration (`MOCK_MODE = True`),
executing a resolvable test case performs no outbound HTTP call (zero
Target Invoker calls, and the outcome does not depend on the invoker's
behaviour); the simulated actual status equals the case's expected status
whenever the built URL does not contain the substring "418" (and equals 418
when it does); expected-response key validation is never performed (the
outcome does not depend on `expected_response`); and every such non-"418"
case yields status `passed` with response time 50.0. -/
theorem c10_mock_mode (env : Env) (id : Int) (tc : TestCaseData)
    (retry : Nat) (o o2 : Nat → AttemptOutcome) (alt : List String)
    (hc : env.cases id = some tc) :
    MOCK_MODE = true ∧
    (execute_single_test MOCK_MODE env id retry o).invokerCalls = 0 ∧
    execute_single_test MOCK_MODE env id retry o =
      execute_single_test MOCK_MODE env id retry o2 ∧
    (containsSub (resolveBaseUrl env tc.project_id ++ tc.endpoint) "418"
        = false →
      (execute_single_test MOCK_MODE env id retry o).status = .passed ∧
      (execute_single_test MOCK_MODE env id retry o).response_time =
        some 50 ∧
      (execute_single_test MOCK_MODE env id retry o).actual_status =
        some tc.expected_status) ∧
    (containsSub (resolveBaseUrl env tc.project_id ++ tc.endpoint) "418"
        = true →
      (execute_single_test MOCK_MODE env id retry o).actual_status =
        some 418) ∧
    execute_single_test MOCK_MODE
        (envWithCase env id { tc with expected_response := alt }) id retry o =
      execute_single_test MOCK_MODE env id retry o := by
  have hm := execute_single_test_mock env id tc retry o hc
  have hm2 := execute_single_test_mock env id tc retry o2 hc
  have hc' : (envWithCase env id { tc with expected_response := alt }).cases
      id = some { tc with expected_response := alt } := by
    simp [envWithCase]
  have hm3 := execute_single_test_mock
    (envWithCase env id { tc with expected_response := alt }) id
    { tc with expected_response := alt } retry o hc'
  refine ⟨rfl, ?_, hm.trans hm2.symm, ?_, ?_, hm3.trans hm.symm⟩
  · rw [hm]
    by_cases h418 : containsSub (resolveBaseUrl env tc.project_id ++
        tc.endpoint) "418" = true
    · exact (mockAttempt_418 _ _ h418).2
    · have h418' : containsSub (resolveBaseUrl env tc.project_id ++
          tc.endpoint) "418" = false := by simpa using h418
      rw [mockAttempt_no418 _ _ h418']
  · intro h418
    rw [hm, mockAttempt_no418 _ _ h418]
    exact ⟨rfl, rfl, rfl⟩
  · intro h418
    rw [hm]
    exact (mockAttempt_418 _ _ h418).1

/-- Witness for C10 at the concrete case `tcC10` whose built URL
`https://httpbin.org/get` contains no "418". -/
theorem c10_mock_mode_witness :
    (execute_single_test MOCK_MODE envC10 3 2 oracleC7).invokerCalls = 0 ∧
    (execute_single_test MOCK_MODE envC10 3 2 oracleC7).status = .passed ∧
    (execute_single_test MOCK_MODE envC10 3 2 oracleC7).response_time =
      some 50 ∧
    (execute_single_test MOCK_MODE envC10 3 2 oracleC7).actual_status =
      some tcC10.expected_status := by
  have h := c10_mock_mode envC10 3 tcC10 2 oracleC7 oracleC7 ["k"] (by decide)
  have h418 : containsSub
      (resolveBaseUrl envC10 tcC10.project_id ++ tcC10.endpoint) "418"
      = false := by decide
  obtain ⟨-, hcalls, -, hpass, -, -⟩ := h
  obtain ⟨hst, hrt, has⟩ := hpass h418
  exact ⟨hcalls, hst, hrt, has⟩

/-- C2 (amended): once the run is finalized and not stopped, under the
serial and parallel strategies the results list has exactly one entry per
requested test-case id and an unresolvable id still yields a terminal
`error` result; under the mixed strategy the results list instead has
exactly one entry per id that survives the partition step — unresolvable
ids are dropped there (`executions.py` line 352) and yield no result. -/
theorem c2_results_per_case (c : Ctx) (s : EngineState)
    (hr : Reaches c (initState c) s) (hfin : s.finalized = true)
    (hns : s.status ≠ .stopped) :
    ((c.strategy = "serial" ∨ c.strategy = "parallel") →
      s.results.length = c.test_case_ids.length ∧
      ∀ id ∈ c.test_case_ids, c.env.cases id = none →
        ∃ r ∈ s.results, r.test_case_id = id ∧ r.status = .error) ∧
    (c.strategy ≠ "serial" → c.strategy ≠ "parallel" →
      s.results.length =
        (mixedPartition c.env c.test_case_ids).1.length +
          (mixedPartition c.env c.test_case_ids).2.length) := by
  have hinv := inv_reaches hr
  obtain ⟨hph, hsr, hgq, hrun, hsq, hnr⟩ := hinv.finalizedInv hfin
  have hsq' : s.serialQueue = [] := by
    rcases hsq with h | h
    · exact h
    · exact absurd h hns
  have hpn : s.pendingNormal = [] := (hinv.phaseGated hph).2.1
  have hcount := hinv.countInv hns
  have hq0 : queueMs s = 0 := by
    simp [queueMs, srList, hsq', hsr, hgq, hrun, hpn]
  rw [hq0, add_zero] at hcount
  have hlen : s.results.length =
      (dispatchIds c).1.length + (dispatchIds c).2.length := by
    have hcard := congrArg Multiset.card hcount
    simpa using hcard
  constructor
  · intro hstrat
    have hds : dispatchIds c = (c.test_case_ids, []) ∨
        dispatchIds c = ([], c.test_case_ids) := by
      rcases hstrat with h | h
      · exact Or.inl (by simp [dispatchIds, h])
      · exact Or.inr (by simp [dispatchIds, h])
    constructor
    · rcases hds with h | h <;> rw [h] at hlen <;> simpa using hlen
    · intro id hid hnone
      have hmem : (id : Int) ∈ ((dispatchIds c).1 : Multiset Int) +
          ((dispatchIds c).2 : Multiset Int) := by
        rcases hds with h | h <;> rw [h] <;> simp [hid]
      rw [← hcount] at hmem
      have hmem' : id ∈ s.results.map (fun r => r.test_case_id) :=
        Multiset.mem_coe.mp hmem
      obtain ⟨r, hrmem, hrid⟩ := List.mem_map.mp hmem'
      have herr := hinv.resErrUnresolved r hrmem (by
        show c.env.cases r.test_case_id = none
        rw [show r.test_case_id = id from hrid]
        exact hnone)
      exact ⟨r, hrmem, hrid, herr.1⟩
  · intro h1 h2
    have hd : dispatchIds c = mixedPartition c.env c.test_case_ids := by
      simp [dispatchIds, h1, h2]
    rw [hd] at hlen
    exact hlen

/-- Counterexample for C2 as stated: a mixed run over the single
unresolvable id 99 finalizes as `completed` (terminal, not stopped) with an
empty results list — the id was dropped at partition time, so
`len(results) = 0 ≠ 1 = len(test_case_ids)` and no `error` result exists
for it. -/
theorem c2_mixed_drop_counterexample :
    Reaches ctxC2x (initState ctxC2x) c2x2 ∧
    c2x2.finalized = true ∧
    c2x2.status = .completed ∧
    c2x2.status ≠ .stopped ∧
    c2x2.results.length = 0 ∧
    ctxC2x.test_case_ids.length = 1 ∧
    envEmpty.cases 99 = none := by
  refine ⟨?_, rfl, rfl, by decide, rfl, rfl, rfl⟩
  exact Reaches.tail (Reaches.tail Reaches.refl
      (Step.gateOpen c2x0 (by decide) (by decide) (Or.inl (by decide))))
    (Step.finalize c2x1 (by decide) (by decide) (by decide) (by decide)
      (by decide) (Or.inl (by decide)))

/-- Witness for C2 at the concrete serial run over the unresolvable id 7:
each hypothesis of `c2_results_per_case` is discharged on the concrete
finalized trace, yielding the per-case count and the `error` result. -/
theorem c2_results_per_case_witness :
    c2w4.results.length = ctxC2w.test_case_ids.length ∧
    ∃ r ∈ c2w4.results, r.test_case_id = 7 ∧ r.status = .error := by
  have s1 : Step ctxC2w c2w0 c2w1 :=
    Step.serialStart c2w0 7 [] (by decide) (by decide) (by decide) (by decide)
  have s2 : Step ctxC2w c2w1 c2w2 := Step.serialFinish c2w1 7 0 (by decide)
  have s3 : Step ctxC2w c2w2 c2w3 :=
    Step.gateOpen c2w2 (by decide) (by decide) (Or.inl (by decide))
  have s4 : Step ctxC2w c2w3 c2w4 :=
    Step.finalize c2w3 (by decide) (by decide) (by decide) (by decide)
      (by decide) (Or.inl (by decide))
  have hreach : Reaches ctxC2w (initState ctxC2w) c2w4 :=
    Reaches.tail (Reaches.tail (Reaches.tail (Reaches.tail
      Reaches.refl s1) s2) s3) s4
  have h := (c2_results_per_case ctxC2w c2w4 hreach (by decide)
    (by decide)).1 (Or.inl rfl)
  exact ⟨h.1, h.2 7 (by decide) rfl⟩

/-- C3 (amended): `stop()` on a pending or running execution record succeeds,
sets its status to `stopped` and leaves the accumulated results untouched;
while the status is stopped, no new case is admitted to the scheduler (the
serial loop dispatches nothing further and the gated task-set creation
creates no task), although cases already in flight may still append their
results; `stop()` on a terminal execution returns an error response and
leaves the record — status and results — entirely unchanged. -/
theorem c3_stop_semantics :
    (∀ (e : TestBatchExecution) (now : Nat),
        e.status = .pending ∨ e.status = .running →
        (stop_execution e now).1.success = true ∧
        (stop_execution e now).2.status = .stopped ∧
        (stop_execution e now).2.results = e.results) ∧
    (∀ (e : TestBatchExecution) (now : Nat),
        e.status ≠ .pending → e.status ≠ .running →
        (stop_execution e now).1.success = false ∧
        (stop_execution e now).2 = e) ∧
    (∀ (c : Ctx) (s t : EngineState), s.status = .stopped → Step c s t →
        t.admitted = s.admitted) := by
  refine ⟨?_, ?_, ?_⟩
  · intro e now h
    unfold stop_execution
    rw [if_pos h]
    exact ⟨rfl, rfl, rfl⟩
  · intro e now h1 h2
    unfold stop_execution
    rw [if_neg (not_or.mpr ⟨h1, h2⟩)]
    exact ⟨rfl, rfl⟩
  · intro c s t hstp hst
    cases hst with
    | stopRequest h => rfl
    | serialStart id rest h1 h2 h3 h4 => exact absurd hstp h1
    | serialFinish id t0 h1 => rfl
    | gateOpen h1 h2 h3 =>
      show s.admitted ++
          (if s.status = .stopped then [] else s.pendingNormal) = s.admitted
      rw [if_pos hstp, List.append_nil]
    | gatedStart id rest m h1 h2 h3 => rfl
    | gatedFinish id t0 l1 l2 h1 => rfl
    | finalize h1 h2 h3 h4 h5 h6 => rfl

/-- Counterexample for C3 as stated ("freezes the results list: no further
results are appended after the stop takes effect"): in a serial run of one
case, the stop takes effect while the case is in flight (`c3s2` is reachable,
stopped and has no results), and the very next scheduler step appends the
in-flight case's result. -/
theorem c3_freeze_counterexample :
    Reaches ctxC3 (initState ctxC3) c3s2 ∧
    c3s2.status = .stopped ∧
    c3s2.results.length = 0 ∧
    Step ctxC3 c3s2 c3s3 ∧
    c3s3.results.length = 1 := by
  refine ⟨?_, rfl, rfl, Step.serialFinish c3s2 1 0 (by decide), rfl⟩
  exact Reaches.tail (Reaches.tail Reaches.refl
      (Step.serialStart c3s0 1 [] (by decide) (by decide) (by decide)
        (by decide)))
    (Step.stopRequest c3s1 (by decide))

/-- Witness for C3: the three parts of `c3_stop_semantics` applied to
concrete records and to the concrete stopped state `c3s2`. -/
theorem c3_stop_semantics_witness :
    ((stop_execution eC3running 5).1.success = true ∧
      (stop_execution eC3running 5).2.status = .stopped) ∧
    (stop_execution eC3completed 5).2 = eC3completed ∧
    c3s3.admitted = c3s2.admitted := by
  refine ⟨?_, ?_, ?_⟩
  · have h := c3_stop_semantics.1 eC3running 5 (Or.inr rfl)
    exact ⟨h.1, h.2.1⟩
  · exact (c3_stop_semantics.2.1 eC3completed 5 (by decide) (by decide)).2
  · exact c3_stop_semantics.2.2 ctxC3 c3s2 c3s3 (by decide)
      (Step.serialFinish c3s2 1 0 (by decide))

/-- C6: under the mixed strategy, every result of a case in the
normal-priority partition starts no earlier than the completion of every
result of a case in the high/critical-priority partition, provided the two
partitions name disjoint case ids (so that results can be attributed). -/
theorem c6_mixed_priority_order (c : Ctx) (s : EngineState)
    (hmix : c.strategy = "mixed") (hr : Reaches c (initState c) s)
    (hdisj : ∀ x ∈ (mixedPartition c.env c.test_case_ids).1,
        x ∉ (mixedPartition c.env c.test_case_ids).2)
    (rh rn : TestExecutionResult) (hrh : rh ∈ s.results)
    (hrn : rn ∈ s.results)
    (hh : rh.test_case_id ∈ (mixedPartition c.env c.test_case_ids).1)
    (hn : rn.test_case_id ∈ (mixedPartition c.env c.test_case_ids).2)
    (t : Nat) (ht : rh.completed_at = some t) : t ≤ rn.started_at := by
  have hinv := inv_reaches hr
  have hdisp : dispatchIds c = mixedPartition c.env c.test_case_ids := by
    simp [dispatchIds, hmix]
  have hd : PartDisjoint c := by
    intro x hx
    rw [hdisp] at hx ⊢
    exact hdisj x hx
  obtain ⟨g, hg, hgle⟩ := hinv.resNormalStarted hd rn hrn
    (by rw [hdisp]; exact hn)
  have hta := hinv.resHighCompleted hd rh hrh (by rw [hdisp]; exact hh)
    g hg t ht
  omega

/-- Witness for C6 on the concrete mixed trace over the high-priority case 1
and the medium-priority case 2: case 1 completes at time 1, case 2 starts at
time 3. -/
theorem c6_mixed_priority_order_witness :
    (1 : Nat) ≤ (mkCaseResult ctxC6 2 3 4).started_at := by
  have s1 : Step ctxC6 c6s0 c6s1 :=
    Step.serialStart c6s0 1 [] (by decide) (by decide) (by decide) (by decide)
  have s2 : Step ctxC6 c6s1 c6s2 := Step.serialFinish c6s1 1 0 (by decide)
  have s3 : Step ctxC6 c6s2 c6s3 :=
    Step.gateOpen c6s2 (by decide) (by decide) (Or.inl (by decide))
  have s4 : Step ctxC6 c6s3 c6s4 :=
    Step.gatedStart c6s3 2 [] 0 (by decide) (by decide) (by decide)
  have s5 : Step ctxC6 c6s4 c6s5 :=
    Step.gatedFinish c6s4 2 3 [] [] (by decide)
  have hreach : Reaches ctxC6 (initState ctxC6) c6s5 :=
    Reaches.tail (Reaches.tail (Reaches.tail (Reaches.tail
      (Reaches.tail Reaches.refl s1) s2) s3) s4) s5
  exact c6_mixed_priority_order ctxC6 c6s5 rfl hreach (by decide)
    (mkCaseResult ctxC6 1 0 1) (mkCaseResult ctxC6 2 3 4)
    (show mkCaseResult ctxC6 1 0 1 ∈
        [mkCaseResult ctxC6 1 0 1, mkCaseResult ctxC6 2 3 4] from
      List.mem_cons_self _ _)
    (show mkCaseResult ctxC6 2 3 4 ∈
        [mkCaseResult ctxC6 1 0 1, mkCaseResult ctxC6 2 3 4] from
      List.mem_cons_of_mem _ (List.mem_cons_self _ _))
    (by decide) (by decide) 1 rfl
